import Mathlib

/-!
Verification of the Alcon backend relay server (`src/server.ts`).

The server keeps two registries, `windowsClients` (producers, a JS `Map`
keyed by client id) and `webClients` (consumers, keyed by socket id), and
routes overlay updates, commands, screenshot requests and screen snapshots
between them.  We embed the registries as insertion-ordered association
lists with JavaScript `Map` semantics (`set` replaces in place, `delete`
removes by key) and each HTTP / socket handler as a pure function from the
server state and the request payload to the new state, the HTTP response,
and the list of emitted events, each tagged with the registry key of the
connection it is emitted to.
-/

namespace Alcon

/-- A JavaScript value as it can appear in a request body or socket payload:
`undefined`, `null`, a boolean, an integral number, or a string. -/
inductive JSVal where
  | undef
  | null
  | bool (b : Bool)
  | num (n : Int)
  | str (s : String)
deriving DecidableEq

/-- JavaScript truthiness of a `JSVal` (`undefined`, `null`, `false`, `0`
and `""` are falsy). -/
def JSVal.truthy : JSVal → Bool
  | .undef => false
  | .null => false
  | .bool b => b
  | .num n => n != 0
  | .str s => s != ""

/-- JavaScript `String(v)` coercion. -/
def JSVal.toStr : JSVal → String
  | .undef => "undefined"
  | .null => "null"
  | .bool b => if b then "true" else "false"
  | .num n => toString n
  | .str s => s

/-- `field || default` for an optional string field: JavaScript `||` falls
through on `undefined` and on the empty string (both falsy). -/
def jsStrOr : Option String → String → String
  | some s, d => if s == "" then d else s
  | none, d => d

/-- Truthiness test `if (field)` for an optional string field. -/
def strTruthy : Option String → Bool
  | some s => s != ""
  | none => false

/-- `ScreenshotData` from `server.ts`: the snapshot record built by the
`screen_update` handler. -/
structure ScreenshotData where
  image : String
  timestamp : Int
  clientId : String
deriving DecidableEq

/-- `WindowsClient` from `server.ts` (a producer registry entry).  The
`socket` field of the source is represented by `socketId`, which is the
identity the server uses for it everywhere. -/
structure WindowsClient where
  socketId : String
  clientId : String
  lastScreenshot : Option ScreenshotData
  connectedAt : Int
  hostname : String
deriving DecidableEq

/-- `WebClient` from `server.ts` (a consumer registry entry). -/
structure WebClient where
  socketId : String
  watchingClientId : Option String
deriving DecidableEq

/-- The payload element of a `pc_list_update` event (`broadcastPCList` and
the `client_type` web branch). -/
structure PCInfo where
  clientId : String
  hostname : String
  connectedAt : Int
  hasScreenshot : Bool
deriving DecidableEq

/-- The payload element of the `GET /connected-pcs` response; unlike
`PCInfo` it also carries the socket id and re-defaults the hostname. -/
structure PCInfoHttp where
  clientId : String
  socketId : String
  hostname : String
  connectedAt : Int
  hasScreenshot : Bool
deriving DecidableEq

/-- An event emitted to one connection. -/
inductive Event where
  | updateOverlay (text : String)
  | toggleOverlay (visible : JSVal)
  | executeCommand (command : JSVal)
  | executeCommandRaw (clientId : Option String) (command : JSVal)
  | requestScreenshot
  | screenUpdate (shot : ScreenshotData)
  | pcListUpdate (pcs : List PCInfo)
deriving DecidableEq

/-- An HTTP response of the `/update` and `/toggle-overlay` endpoints. -/
inductive Resp where
  | updateOk (text : JSVal) (clientsNotified : Nat)
  | toggleOk (visible : JSVal)
  | err (status : Nat) (msg : String)
deriving DecidableEq

/-- JS `Map.get`: the value of the first (only) entry with the given key. -/
def mapGet {α : Type} (m : List (String × α)) (k : String) : Option α :=
  (m.find? (fun p => p.1 == k)).map (fun p => p.2)

/-- JS `Map.set`: replace the entry in place if the key is present
(keeping its position, as a JS `Map` does), otherwise append. -/
def mapSet {α : Type} (m : List (String × α)) (k : String) (v : α) :
    List (String × α) :=
  match m with
  | [] => [(k, v)]
  | p :: rest => if p.1 == k then (k, v) :: rest else p :: mapSet rest k v

/-- JS `Map.delete`: remove the entry with the given key. -/
def mapDelete {α : Type} (m : List (String × α)) (k : String) :
    List (String × α) :=
  m.filter (fun p => p.1 != k)

/-- The whole mutable state of the server: the two registries, in
insertion order. -/
structure ServerState where
  windows : List (String × WindowsClient)
  webs : List (String × WebClient)
deriving DecidableEq

/-- The empty initial state. -/
def initState : ServerState := ⟨[], []⟩

/-- The `pc_list_update` payload (`broadcastPCList` in `server.ts` and the
web branch of `client_type`): project every producer entry, dropping the
snapshot except for its presence bit. -/
def pcListPayload (w : List (String × WindowsClient)) : List PCInfo :=
  w.map (fun p =>
    ⟨p.2.clientId, p.2.hostname, p.2.connectedAt, p.2.lastScreenshot.isSome⟩)

/-- `broadcastPCList` from `server.ts`: emit `pc_list_update` with the
current producer projection to every registered web client. -/
def broadcastPCList (st : ServerState) : List (String × Event) :=
  st.webs.map (fun p => (p.1, Event.pcListUpdate (pcListPayload st.windows)))

/-- The per-entry projection of `GET /connected-pcs`. -/
def projPC (c : WindowsClient) : PCInfoHttp :=
  ⟨c.clientId, c.socketId, jsStrOr (some c.hostname) "Unknown PC",
    c.connectedAt, c.lastScreenshot.isSome⟩

/-- `GET /connected-pcs`: the read-only producer list projection. -/
def connectedPCs (st : ServerState) : List PCInfoHttp :=
  st.windows.map (fun p => projPC p.2)

/-- `POST /update` (`server.ts` lines 62-89): validate `text`
(`if (!text && text !== 0)` rejects any falsy value other than the number
zero), then deliver `update_overlay` to the producer named by a truthy
`clientId` (404 if unknown) or to every producer when `clientId` is
absent or falsy. -/
def postUpdate (st : ServerState) (text : JSVal) (clientId : Option String) :
    Resp × List (String × Event) :=
  if !text.truthy && text != JSVal.num 0 then
    (Resp.err 400 "Text required", [])
  else if strTruthy clientId then
    match mapGet st.windows (clientId.getD "") with
    | some _ => (Resp.updateOk text 1,
        [(clientId.getD "", Event.updateOverlay text.toStr)])
    | none => (Resp.err 404 "Client not found", [])
  else
    (Resp.updateOk text st.windows.length,
      st.windows.map (fun p => (p.1, Event.updateOverlay text.toStr)))

/-- `POST /toggle-overlay` (`server.ts` lines 91-108): deliver
`toggle_overlay` to the producer named by a truthy `clientId` (404 if
unknown) or to every producer otherwise. -/
def postToggle (st : ServerState) (visible : JSVal)
    (clientId : Option String) : Resp × List (String × Event) :=
  if strTruthy clientId then
    match mapGet st.windows (clientId.getD "") with
    | some _ => (Resp.toggleOk visible,
        [(clientId.getD "", Event.toggleOverlay visible)])
    | none => (Resp.err 404 "Client not found", [])
  else
    (Resp.toggleOk visible,
      st.windows.map (fun p => (p.1, Event.toggleOverlay visible)))

/-- Socket event `request_screenshot` (`server.ts` lines 247-261):
targeted-else-broadcast forwarding; an unknown truthy id is silently
dropped. -/
def requestScreenshotH (st : ServerState) (clientId : Option String) :
    List (String × Event) :=
  if strTruthy clientId then
    match mapGet st.windows (clientId.getD "") with
    | some _ => [(clientId.getD "", Event.requestScreenshot)]
    | none => []
  else
    st.windows.map (fun p => (p.1, Event.requestScreenshot))

/-- Socket event `remote_command` (`server.ts` lines 264-278): targeted
delivery of `execute_command {command}`, or legacy broadcast of the raw
payload to every producer; an unknown truthy id is silently dropped. -/
def remoteCommandH (st : ServerState) (clientId : Option String)
    (command : JSVal) : List (String × Event) :=
  if strTruthy clientId then
    match mapGet st.windows (clientId.getD "") with
    | some _ => [(clientId.getD "", Event.executeCommand command)]
    | none => []
  else
    st.windows.map (fun p => (p.1, Event.executeCommandRaw clientId command))

/-- `client_type` with `type === 'windows'` (`server.ts` lines 148-165):
register the producer under `data.clientId || socket.id` with hostname
`data.hostname || 'Unknown PC'`, then broadcast the updated producer list
to every web client. -/
def clientTypeWindowsH (st : ServerState) (sockId : String)
    (clientId hostname : Option String) (now : Int) :
    ServerState × List (String × Event) :=
  let cid := jsStrOr clientId sockId
  let host := jsStrOr hostname "Unknown PC"
  let entry : WindowsClient := ⟨sockId, cid, none, now, host⟩
  let st' : ServerState := ⟨mapSet st.windows cid entry, st.webs⟩
  (st', broadcastPCList st')

/-- `client_type` with `type === 'web'` (`server.ts` lines 167-186):
register the consumer with no watch target and send it the current
producer list (point-to-point). -/
def clientTypeWebH (st : ServerState) (sockId : String) :
    ServerState × List (String × Event) :=
  let st' : ServerState := ⟨st.windows, mapSet st.webs sockId ⟨sockId, none⟩⟩
  (st', [(sockId, Event.pcListUpdate (pcListPayload st.windows))])

/-- Socket event `watch_pc` (`server.ts` lines 190-204): if the sender is
a registered web client, set its watch target, and if the named producer
exists and holds a cached snapshot, deliver that snapshot to the sender
immediately. -/
def watchPCH (st : ServerState) (sockId : String) (clientId : Option String) :
    ServerState × List (String × Event) :=
  match mapGet st.webs sockId with
  | none => (st, [])
  | some wc =>
    let st' : ServerState :=
      ⟨st.windows, mapSet st.webs sockId ⟨wc.socketId, clientId⟩⟩
    match clientId.bind (mapGet st.windows) with
    | some win =>
      match win.lastScreenshot with
      | some shot => (st', [(sockId, Event.screenUpdate shot)])
      | none => (st', [])
    | none => (st', [])

/-- Socket event `unwatch_pc` (`server.ts` lines 207-213): clear the watch
target of a registered web client. -/
def unwatchPCH (st : ServerState) (sockId : String) : ServerState :=
  match mapGet st.webs sockId with
  | none => st
  | some wc => ⟨st.windows, mapSet st.webs sockId ⟨wc.socketId, none⟩⟩

/-- Replace the `lastScreenshot` of the first producer entry whose socket
id matches (the entry the `for`/`break` loop of the `screen_update` handler
finds and mutates). -/
def updateFirstBySocket (m : List (String × WindowsClient)) (sockId : String)
    (shot : ScreenshotData) : List (String × WindowsClient) :=
  match m with
  | [] => []
  | p :: rest =>
    if p.2.socketId == sockId then
      (p.1, ⟨p.2.socketId, p.2.clientId, some shot, p.2.connectedAt,
        p.2.hostname⟩) :: rest
    else p :: updateFirstBySocket rest sockId shot

/-- Socket event `screen_update` (`server.ts` lines 216-244): look the
sender up by socket id among the producers; drop the update silently if it
is not registered; otherwise store the snapshot on that entry and deliver
it to exactly the web clients whose watch target equals the producer's
client id. -/
def screenUpdateH (st : ServerState) (sockId : String) (image : String)
    (timestamp : Int) : ServerState × List (String × Event) :=
  match st.windows.find? (fun p => p.2.socketId == sockId) with
  | none => (st, [])
  | some pr =>
    let shot : ScreenshotData := ⟨image, timestamp, pr.2.clientId⟩
    let st' : ServerState :=
      ⟨updateFirstBySocket st.windows sockId shot, st.webs⟩
    (st', st.webs.filterMap (fun p =>
      if p.2.watchingClientId == some pr.2.clientId then
        some (p.1, Event.screenUpdate shot)
      else none))

/-- Socket `disconnect` (`server.ts` lines 281-297): delete the first
producer entry whose socket id matches (the loop `break`s after one) and,
if one was removed, broadcast the updated producer list to the web clients
(still including the disconnecting one, which is removed afterwards);
then delete the sender's web entry. -/
def disconnectH (st : ServerState) (sockId : String) :
    ServerState × List (String × Event) :=
  match st.windows.find? (fun p => p.2.socketId == sockId) with
  | some pr =>
    let st1 : ServerState := ⟨mapDelete st.windows pr.1, st.webs⟩
    let dels := broadcastPCList st1
    (⟨st1.windows, mapDelete st1.webs sockId⟩, dels)
  | none => (⟨st.windows, mapDelete st.webs sockId⟩, [])

/-- One inbound socket operation, for reasoning about reachable states. -/
inductive Op where
  | ctWindows (sockId : String) (clientId hostname : Option String) (now : Int)
  | ctWeb (sockId : String)
  | watch (sockId : String) (clientId : Option String)
  | unwatch (sockId : String)
  | screenUpd (sockId : String) (image : String) (timestamp : Int)
  | disc (sockId : String)

/-- The state transition of one operation (events discarded). -/
def stepOp (st : ServerState) : Op → ServerState
  | .ctWindows s c h n => (clientTypeWindowsH st s c h n).1
  | .ctWeb s => (clientTypeWebH st s).1
  | .watch s c => (watchPCH st s c).1
  | .unwatch s => unwatchPCH st s
  | .screenUpd s i t => (screenUpdateH st s i t).1
  | .disc s => (disconnectH st s).1

/-- The state after a sequence of operations from the empty state. -/
def applyOps (ops : List Op) : ServerState :=
  ops.foldl stepOp initState

/-! ### Association-list lemmas -/

theorem mapGet_mapSet_self {α : Type} (m : List (String × α)) (k : String)
    (v : α) : mapGet (mapSet m k v) k = some v := by
  induction m with
  | nil => simp [mapSet, mapGet]
  | cons p rest ih =>
    by_cases h : p.1 = k
    · simp [mapSet, h, mapGet]
    · have hb : (p.1 == k) = false := by simpa using h
      simp only [mapSet, hb, Bool.false_eq_true, if_false]
      simp only [mapGet] at ih ⊢
      rw [List.find?_cons_of_neg _ (by simp [hb])]
      exact ih

theorem keys_mapSet_of_mem {α : Type} (m : List (String × α)) (k : String)
    (v : α) (h : k ∈ m.map Prod.fst) :
    (mapSet m k v).map Prod.fst = m.map Prod.fst := by
  induction m with
  | nil => simp at h
  | cons p rest ih =>
    by_cases hp : p.1 = k
    · simp [mapSet, hp]
    · have hb : (p.1 == k) = false := by simpa using hp
      have hr : k ∈ rest.map Prod.fst := by
        rcases (by simpa using h : k = p.1 ∨ k ∈ rest.map Prod.fst) with h' | h'
        · exact absurd h'.symm hp
        · exact h'
      simp [mapSet, hb, ih hr]

theorem keys_mapSet_of_not_mem {α : Type} (m : List (String × α)) (k : String)
    (v : α) (h : k ∉ m.map Prod.fst) :
    (mapSet m k v).map Prod.fst = m.map Prod.fst ++ [k] := by
  induction m with
  | nil => simp [mapSet]
  | cons p rest ih =>
    have hp : p.1 ≠ k := fun e => h (by simp [e])
    have hb : (p.1 == k) = false := by simpa using hp
    have hr : k ∉ rest.map Prod.fst := fun hk => h (by simp [hk])
    simp [mapSet, hb, ih hr]

theorem nodup_keys_mapSet {α : Type} (m : List (String × α)) (k : String)
    (v : α) (h : (m.map Prod.fst).Nodup) :
    ((mapSet m k v).map Prod.fst).Nodup := by
  by_cases hk : k ∈ m.map Prod.fst
  · rwa [keys_mapSet_of_mem m k v hk]
  · rw [keys_mapSet_of_not_mem m k v hk]
    simp [List.nodup_append, h, hk]

theorem mem_mapSet {α : Type} {m : List (String × α)} {k : String} {v : α}
    {q : String × α} (h : q ∈ mapSet m k v) : q ∈ m ∨ q = (k, v) := by
  induction m with
  | nil => simp [mapSet] at h; right; simpa using h
  | cons p rest ih =>
    by_cases hp : p.1 = k
    · have hb : (p.1 == k) = true := by simpa using hp
      simp only [mapSet, hb, if_true] at h
      rcases (by simpa using h : q = (k, v) ∨ q ∈ rest) with h' | h'
      · right; exact h'
      · left; exact List.mem_cons_of_mem _ h'
    · have hb : (p.1 == k) = false := by simpa using hp
      simp only [mapSet, hb, Bool.false_eq_true, if_false] at h
      rcases (by simpa using h : q = p ∨ q ∈ mapSet rest k v) with h' | h'
      · left; simp [h']
      · rcases ih h' with h'' | h''
        · left; exact List.mem_cons_of_mem _ h''
        · right; exact h''

theorem mem_of_mem_mapDelete {α : Type} {m : List (String × α)} {k : String}
    {q : String × α} (h : q ∈ mapDelete m k) : q ∈ m :=
  List.mem_of_mem_filter h

theorem keys_mapDelete_sublist {α : Type} (m : List (String × α))
    (k : String) :
    List.Sublist ((mapDelete m k).map Prod.fst) (m.map Prod.fst) :=
  (List.filter_sublist m).map Prod.fst

theorem not_mem_keys_mapDelete {α : Type} (m : List (String × α))
    (k : String) : k ∉ (mapDelete m k).map Prod.fst := by
  intro h
  rcases List.mem_map.mp h with ⟨q, hq, he⟩
  have hfilter := List.of_mem_filter hq
  rw [he] at hfilter
  simp at hfilter

theorem mem_keys_of_mapGet {α : Type} {m : List (String × α)} {k : String}
    {v : α} (h : mapGet m k = some v) : k ∈ m.map Prod.fst := by
  rcases Option.map_eq_some'.mp h with ⟨p, hfind, _⟩
  have hmem := List.mem_of_find?_eq_some hfind
  have hkey := List.find?_some hfind
  exact List.mem_map.mpr ⟨p, hmem, by simpa using hkey⟩

theorem keys_updateFirstBySocket (m : List (String × WindowsClient))
    (s : String) (shot : ScreenshotData) :
    (updateFirstBySocket m s shot).map Prod.fst = m.map Prod.fst := by
  induction m with
  | nil => rfl
  | cons p rest ih =>
    simp only [updateFirstBySocket]
    split
    · simp
    · simp [ih]

theorem find?_updateFirstBySocket (m : List (String × WindowsClient))
    (s : String) (shot : ScreenshotData) (k : String) (wc : WindowsClient)
    (h : m.find? (fun p => p.2.socketId == s) = some (k, wc)) :
    (updateFirstBySocket m s shot).find? (fun p => p.2.socketId == s) =
      some (k, ⟨wc.socketId, wc.clientId, some shot, wc.connectedAt,
        wc.hostname⟩) := by
  induction m with
  | nil => simp at h
  | cons p rest ih =>
    by_cases hp : (p.2.socketId == s) = true
    · have hpe : p = (k, wc) := by
        simp only [List.find?_cons, hp] at h
        simpa using h
      subst hpe
      simp only [updateFirstBySocket, hp, if_true]
      exact List.find?_cons_of_pos _ (by simpa using hp)
    · have hb : (p.2.socketId == s) = false := by simpa using hp
      simp only [List.find?_cons, hb] at h
      simp only [updateFirstBySocket]
      rw [if_neg hp]
      simp only [List.find?_cons, hb]
      exact ih h

theorem keysOK_updateFirstBySocket (m : List (String × WindowsClient))
    (s : String) (shot : ScreenshotData)
    (h : ∀ p ∈ m, (p : String × WindowsClient).2.clientId = p.1) :
    ∀ q ∈ updateFirstBySocket m s shot,
      (q : String × WindowsClient).2.clientId = q.1 := by
  induction m with
  | nil => intro q hq; simp [updateFirstBySocket] at hq
  | cons p rest ih =>
    intro q hq
    simp only [updateFirstBySocket] at hq
    split at hq
    · rcases List.mem_cons.mp hq with h' | h'
      · rw [h']
        exact h p (List.mem_cons_self p rest)
      · exact h q (List.mem_cons_of_mem _ h')
    · rcases List.mem_cons.mp hq with h' | h'
      · rw [h']
        exact h p (List.mem_cons_self p rest)
      · exact ih (fun r hr => h r (List.mem_cons_of_mem _ hr)) q h'

/-! ### Invariants of reachable states -/

/-- Every producer entry is stored under its own client id. -/
def KeysOK (w : List (String × WindowsClient)) : Prop :=
  ∀ p ∈ w, (p : String × WindowsClient).2.clientId = p.1

/-- The producer registry is well formed: entries keyed by their client id
and keys pairwise distinct (as in a JS `Map`). -/
def GoodWin (w : List (String × WindowsClient)) : Prop :=
  KeysOK w ∧ (w.map Prod.fst).Nodup

theorem windows_watchPCH (st : ServerState) (s : String)
    (c : Option String) : (watchPCH st s c).1.windows = st.windows := by
  simp only [watchPCH]
  split
  · rfl
  · split
    · split <;> rfl
    · rfl

theorem goodWin_stepOp (st : ServerState) (op : Op)
    (h : GoodWin st.windows) : GoodWin (stepOp st op).windows := by
  cases op with
  | ctWindows s c hn n =>
    refine ⟨?_, nodup_keys_mapSet _ _ _ h.2⟩
    intro q hq
    rcases mem_mapSet hq with hq' | hq'
    · exact h.1 q hq'
    · rw [hq']
  | ctWeb s => exact h
  | watch s c =>
    simpa only [stepOp, windows_watchPCH] using h
  | unwatch s =>
    simp only [stepOp, unwatchPCH]
    split
    · exact h
    · exact h
  | screenUpd s i t =>
    simp only [stepOp, screenUpdateH]
    cases hf : st.windows.find? (fun p => p.2.socketId == s) with
    | none => exact h
    | some pr =>
      exact ⟨keysOK_updateFirstBySocket _ _ _ h.1,
        by rw [keys_updateFirstBySocket]; exact h.2⟩
  | disc s =>
    simp only [stepOp, disconnectH]
    cases hf : st.windows.find? (fun p => p.2.socketId == s) with
    | none => exact h
    | some pr =>
      refine ⟨?_, h.2.sublist (keys_mapDelete_sublist _ _)⟩
      intro q hq
      exact h.1 q (mem_of_mem_mapDelete hq)

theorem goodWin_foldl (ops : List Op) :
    ∀ st : ServerState, GoodWin st.windows →
      GoodWin ((ops.foldl stepOp st).windows) := by
  induction ops with
  | nil => intro st h; exact h
  | cons op rest ih => intro st h; exact ih _ (goodWin_stepOp st op h)

theorem goodWin_applyOps (ops : List Op) : GoodWin (applyOps ops).windows :=
  goodWin_foldl ops initState ⟨fun p hp => absurd hp (List.not_mem_nil p),
    List.nodup_nil⟩

/-! ### Concrete fixtures -/

/-- A producer entry holding a snapshot, used in concrete witnesses. -/
def demoWin : WindowsClient :=
  ⟨"s1", "pc-1", some ⟨"img1", 100, "pc-1"⟩, 50, "HostA"⟩

/-- A state with one producer (holding a snapshot) and two consumers, one
watching it and one watching nothing. -/
def demoSt : ServerState :=
  ⟨[("pc-1", demoWin)], [("w1", ⟨"w1", some "pc-1"⟩), ("w2", ⟨"w2", none⟩)]⟩

/-! ### Claim theorems -/

/-- C2 counterexample: `POST /update` with `text` equal to the empty string
is rejected with the 400 validation error even though producers are
registered — the claim that the empty string is accepted fails, since
`!text && text !== 0` is true for `""`. -/
theorem c2_counterexample :
    postUpdate demoSt (JSVal.str "") none =
      (Resp.err 400 "Text required", []) := by decide

/-- C2 (amended): `POST /update` rejects with the validation error iff
`text` is falsy and not the number zero — absent, `null`, `false` and the
empty string are rejected; the number zero and every truthy value are
accepted, and an accepted value with no target id is forwarded, stringified,
to every registered producer. -/
theorem c2_update_validation (st : ServerState) (text : JSVal)
    (clientId : Option String) :
    ((postUpdate st text clientId).1 = Resp.err 400 "Text required" ↔
      (text.truthy = false ∧ text ≠ JSVal.num 0)) ∧
    (text.truthy = true ∨ text = JSVal.num 0 → clientId = none →
      (postUpdate st text clientId).2 =
        st.windows.map (fun p => (p.1, Event.updateOverlay text.toStr))) := by
  have hc : (!text.truthy && text != JSVal.num 0) = true ↔
      (text.truthy = false ∧ text ≠ JSVal.num 0) := by
    simp
  constructor
  · rw [← hc]
    constructor
    · intro h
      by_contra hv
      have hv' : (!text.truthy && text != JSVal.num 0) = false := by
        simpa using hv
      simp only [postUpdate, hv', Bool.false_eq_true, if_false] at h
      by_cases ht : strTruthy clientId = true
      · simp only [ht, if_true] at h
        cases hg : mapGet st.windows (clientId.getD "") with
        | some w => rw [hg] at h; simp at h
        | none => rw [hg] at h; simp at h
      · simp [ht] at h
    · intro hv
      simp [postUpdate, hv]
  · intro hval hcid
    subst hcid
    have hv' : (!text.truthy && text != JSVal.num 0) = false := by
      rcases hval with h | h
      · simp [h]
      · simp [h]
    simp [postUpdate, hv', strTruthy]

/-- C2 witness: the number zero is accepted and forwarded as `"0"` to the
registered producer. -/
theorem c2_update_validation_witness :
    (postUpdate demoSt (JSVal.num 0) none).1 ≠ Resp.err 400 "Text required" ∧
    (postUpdate demoSt (JSVal.num 0) none).2 =
      [("pc-1", Event.updateOverlay "0")] := by
  have h := c2_update_validation demoSt (JSVal.num 0) none
  constructor
  · intro he
    exact (h.1.mp he).2 rfl
  · rw [h.2 (Or.inr rfl) rfl]
    decide

/-- C5: pushing two snapshots in succession from the same registered
producer leaves exactly the second one stored as `lastScreenshot`; the
first is overwritten and no history is kept (the entry holds a single
optional snapshot). -/
theorem c5_snapshot_overwrite (st : ServerState) (s i1 i2 : String)
    (t1 t2 : Int) (k : String) (wc : WindowsClient)
    (h : st.windows.find? (fun p => p.2.socketId == s) = some (k, wc)) :
    ((screenUpdateH (screenUpdateH st s i1 t1).1 s i2 t2).1).windows.find?
        (fun p => p.2.socketId == s) =
      some (k, ⟨wc.socketId, wc.clientId, some ⟨i2, t2, wc.clientId⟩,
        wc.connectedAt, wc.hostname⟩) := by
  have e1 : (screenUpdateH st s i1 t1).1 =
      ⟨updateFirstBySocket st.windows s ⟨i1, t1, wc.clientId⟩, st.webs⟩ := by
    simp [screenUpdateH, h]
  rw [e1]
  have h2 := find?_updateFirstBySocket st.windows s ⟨i1, t1, wc.clientId⟩ k wc h
  have e2 : (screenUpdateH
        ⟨updateFirstBySocket st.windows s ⟨i1, t1, wc.clientId⟩, st.webs⟩
        s i2 t2).1 =
      ⟨updateFirstBySocket
          (updateFirstBySocket st.windows s ⟨i1, t1, wc.clientId⟩) s
          ⟨i2, t2, wc.clientId⟩, st.webs⟩ := by
    simp [screenUpdateH, h2]
  rw [e2]
  exact find?_updateFirstBySocket _ s ⟨i2, t2, wc.clientId⟩ k
    ⟨wc.socketId, wc.clientId, some ⟨i1, t1, wc.clientId⟩, wc.connectedAt,
      wc.hostname⟩ h2

/-- C5 witness: two concrete pushes leave only the second snapshot. -/
theorem c5_snapshot_overwrite_witness :
    (demoSt.windows.find? (fun p => p.2.socketId == "s1") =
      some ("pc-1", demoWin)) ∧
    ((screenUpdateH (screenUpdateH demoSt "s1" "a" 1).1 "s1" "b" 2).1).windows.find?
        (fun p => p.2.socketId == "s1") =
      some ("pc-1", ⟨"s1", "pc-1", some ⟨"b", 2, "pc-1"⟩, 50, "HostA"⟩) :=
  ⟨by decide,
    c5_snapshot_overwrite demoSt "s1" "a" "b" 1 2 "pc-1" demoWin (by decide)⟩

/-- C8: a `screen_update` from a connection with no producer entry is
dropped silently — the state is unchanged, nothing is delivered to anyone,
and no error is surfaced. -/
theorem c8_unregistered_screen_update_dropped (st : ServerState)
    (s image : String) (timestamp : Int)
    (h : st.windows.find? (fun p => p.2.socketId == s) = none) :
    screenUpdateH st s image timestamp = (st, []) := by
  simp [screenUpdateH, h]

/-- C8 witness: a push from the unknown socket `"zz"` changes nothing. -/
theorem c8_unregistered_screen_update_dropped_witness :
    (demoSt.windows.find? (fun p => p.2.socketId == "zz") = none) ∧
    screenUpdateH demoSt "zz" "img" 7 = (demoSt, []) :=
  ⟨by decide,
    c8_unregistered_screen_update_dropped demoSt "zz" "img" 7 (by decide)⟩

/-- C10: registering a producer with an empty-string client id produces
exactly the same state and events as registering with the id absent — it is
registered under its socket id — and an empty or missing hostname is stored
as "Unknown PC"; the resulting entry is keyed by the socket id. -/
theorem c10_clientId_defaulting (st : ServerState) (s : String)
    (host : Option String) (now : Int) :
    clientTypeWindowsH st s (some "") host now =
        clientTypeWindowsH st s none host now ∧
    (∀ cid : Option String,
      clientTypeWindowsH st s cid (some "") now =
        clientTypeWindowsH st s cid none now) ∧
    mapGet (clientTypeWindowsH st s (some "") (some "") now).1.windows s =
      some ⟨s, s, none, now, "Unknown PC"⟩ := by
  have e : jsStrOr (some "") s = s := by simp [jsStrOr]
  have e2 : jsStrOr (some "") "Unknown PC" = "Unknown PC" := by simp [jsStrOr]
  refine ⟨rfl, fun cid => rfl, ?_⟩
  simp only [clientTypeWindowsH, jsStrOr, e, e2]
  exact mapGet_mapSet_self st.windows s ⟨s, s, none, now, "Unknown PC"⟩

/-- C3: a snapshot push from a registered producer (the first registry
entry whose socket id matches the sender) is delivered to exactly the web
clients whose watch target equals that producer's client id, each receiving
the freshly built snapshot, and to no other consumer. -/
theorem c3_screen_update_routing (st : ServerState) (s image : String)
    (timestamp : Int) (k : String) (wc : WindowsClient)
    (h : st.windows.find? (fun p => p.2.socketId == s) = some (k, wc)) :
    ∀ (wkey : String) (ev : Event),
      ((wkey, ev) ∈ (screenUpdateH st s image timestamp).2 ↔
        (∃ web : WebClient, (wkey, web) ∈ st.webs ∧
          web.watchingClientId = some wc.clientId) ∧
        ev = Event.screenUpdate ⟨image, timestamp, wc.clientId⟩) := by
  intro wkey ev
  have e : (screenUpdateH st s image timestamp).2 =
      st.webs.filterMap (fun p =>
        if p.2.watchingClientId == some wc.clientId then
          some (p.1, Event.screenUpdate ⟨image, timestamp, wc.clientId⟩)
        else none) := by
    simp [screenUpdateH, h]
  rw [e, List.mem_filterMap]
  constructor
  · rintro ⟨p, hp, he⟩
    split at he
    · rename_i hw
      have hinj := Option.some.inj he
      have h1 : p.1 = wkey := congrArg Prod.fst hinj
      have h2 : Event.screenUpdate ⟨image, timestamp, wc.clientId⟩ = ev :=
        congrArg Prod.snd hinj
      refine ⟨⟨p.2, ?_, by simpa using hw⟩, h2.symm⟩
      rw [← h1]
      exact hp
    · simp at he
  · rintro ⟨⟨web, hmem, hwatch⟩, rfl⟩
    exact ⟨(wkey, web), hmem, by simp [hwatch]⟩

/-- C3 witness: the watching consumer `w1` receives the pushed snapshot. -/
theorem c3_screen_update_routing_witness :
    (demoSt.windows.find? (fun p => p.2.socketId == "s1") =
      some ("pc-1", demoWin)) ∧
    ("w1", Event.screenUpdate ⟨"i2", 200, "pc-1"⟩) ∈
      (screenUpdateH demoSt "s1" "i2" 200).2 :=
  ⟨by decide,
    ((c3_screen_update_routing demoSt "s1" "i2" 200 "pc-1" demoWin (by decide))
        "w1" (Event.screenUpdate ⟨"i2", 200, "pc-1"⟩)).mpr
      ⟨⟨⟨"w1", some "pc-1"⟩, by decide, rfl⟩, rfl⟩⟩

/-- C4: a registered consumer that sends `watch_pc` naming producer `c` gets
its watch target set to `c` in every case; if `c` is registered and holds a
cached snapshot, exactly one `screen_update` carrying that cached snapshot
is delivered, to that consumer alone, within the same handler (hence before
any later producer push); if `c` is unregistered or holds no snapshot,
nothing is delivered. -/
theorem c4_watch_replay (st : ServerState) (sockId c : String)
    (wc : WebClient) (h : mapGet st.webs sockId = some wc) :
    (mapGet ((watchPCH st sockId (some c)).1).webs sockId =
      some ⟨wc.socketId, some c⟩) ∧
    (∀ (win : WindowsClient) (shot : ScreenshotData),
      mapGet st.windows c = some win → win.lastScreenshot = some shot →
      (watchPCH st sockId (some c)).2 = [(sockId, Event.screenUpdate shot)]) ∧
    (mapGet st.windows c = none → (watchPCH st sockId (some c)).2 = []) ∧
    (∀ win : WindowsClient, mapGet st.windows c = some win →
      win.lastScreenshot = none → (watchPCH st sockId (some c)).2 = []) := by
  refine ⟨?_, ?_, ?_, ?_⟩
  · cases hg : mapGet st.windows c with
    | none => simp [watchPCH, h, hg, mapGet_mapSet_self]
    | some win =>
      cases hs : win.lastScreenshot with
      | none => simp [watchPCH, h, hg, hs, mapGet_mapSet_self]
      | some shot => simp [watchPCH, h, hg, hs, mapGet_mapSet_self]
  · intro win shot hg hs
    simp [watchPCH, h, hg, hs]
  · intro hg
    simp [watchPCH, h, hg]
  · intro win hg hs
    simp [watchPCH, h, hg, hs]

/-- C4 witness: consumer `w2` subscribes to `pc-1` and immediately receives
the cached snapshot, alone. -/
theorem c4_watch_replay_witness :
    (mapGet demoSt.webs "w2" = some ⟨"w2", none⟩) ∧
    (watchPCH demoSt "w2" (some "pc-1")).2 =
      [("w2", Event.screenUpdate ⟨"img1", 100, "pc-1"⟩)] :=
  ⟨by decide,
    (c4_watch_replay demoSt "w2" "pc-1" ⟨"w2", none⟩ (by decide)).2.1
      demoWin ⟨"img1", 100, "pc-1"⟩ (by decide) rfl⟩

/-- C6: disconnecting a socket registered as a producer removes that
producer's entry (its key leaves the registry, hence the `ListAll`
projection), and emits exactly one `pc_list_update` to every web client
registered at that moment, whose payload is the projection of the registry
after the removal — in particular the removed producer id is absent from
the payload. -/
theorem c6_disconnect_broadcast (st : ServerState) (s k : String)
    (wc : WindowsClient)
    (h : st.windows.find? (fun p => p.2.socketId == s) = some (k, wc))
    (hkeys : ∀ p ∈ st.windows, (p : String × WindowsClient).2.clientId = p.1) :
    (k ∉ ((disconnectH st s).1).windows.map Prod.fst) ∧
    ((disconnectH st s).2 = st.webs.map (fun p =>
      (p.1, Event.pcListUpdate (pcListPayload (mapDelete st.windows k))))) ∧
    (k ∉ (pcListPayload (mapDelete st.windows k)).map PCInfo.clientId) := by
  have e1 : ((disconnectH st s).1).windows = mapDelete st.windows k := by
    simp [disconnectH, h]
  have e2 : (disconnectH st s).2 = st.webs.map (fun p =>
      (p.1, Event.pcListUpdate (pcListPayload (mapDelete st.windows k)))) := by
    simp [disconnectH, h, broadcastPCList]
  refine ⟨?_, e2, ?_⟩
  · rw [e1]
    exact not_mem_keys_mapDelete st.windows k
  · intro hk
    rcases List.mem_map.mp hk with ⟨info, hinfo, he⟩
    simp only [pcListPayload] at hinfo
    rcases List.mem_map.mp hinfo with ⟨q, hq, hqe⟩
    have hqc : q.2.clientId = k := (congrArg PCInfo.clientId hqe).trans he
    have hk1 : q.1 = k := (hkeys q (mem_of_mem_mapDelete hq)).symm.trans hqc
    exact not_mem_keys_mapDelete st.windows k (List.mem_map.mpr ⟨q, hq, hk1⟩)

/-- C6 witness: disconnecting `s1` yields one empty-list broadcast per
consumer. -/
theorem c6_disconnect_broadcast_witness :
    (demoSt.windows.find? (fun p => p.2.socketId == "s1") =
      some ("pc-1", demoWin)) ∧
    (disconnectH demoSt "s1").2 =
      [("w1", Event.pcListUpdate []), ("w2", Event.pcListUpdate [])] := by
  refine ⟨by decide, ?_⟩
  have h := c6_disconnect_broadcast demoSt "s1" "pc-1" demoWin (by decide)
    (by decide)
  rw [h.2.1]
  decide

/-- C7: after any finite sequence of operations from the empty state, the
`GET /connected-pcs` projection lists exactly the registered producer ids,
in registry (insertion) order, without duplicates; and the per-entry
projection depends only on the identity fields and on whether a snapshot is
present, never on the snapshot payload itself. -/
theorem c7_connected_pcs (ops : List Op) :
    ((connectedPCs (applyOps ops)).map PCInfoHttp.clientId =
      (applyOps ops).windows.map Prod.fst) ∧
    (((applyOps ops).windows.map Prod.fst).Nodup) ∧
    (∀ e e' : WindowsClient, e.clientId = e'.clientId →
      e.socketId = e'.socketId → e.connectedAt = e'.connectedAt →
      e.hostname = e'.hostname →
      e.lastScreenshot.isSome = e'.lastScreenshot.isSome →
      projPC e = projPC e') := by
  have hg := goodWin_applyOps ops
  refine ⟨?_, hg.2, ?_⟩
  · simp only [connectedPCs, List.map_map]
    apply List.map_congr_left
    intro p hp
    exact hg.1 p hp
  · intro e e' h1 h2 h3 h4 h5
    simp only [projPC, h1, h2, h3, h4, h5]

/-- C7 witness: concrete run with one producer and one consumer. -/
theorem c7_connected_pcs_witness :
    (connectedPCs (applyOps [Op.ctWindows "s1" (some "pc-1") (some "HostA") 50,
      Op.ctWeb "w1"])).map PCInfoHttp.clientId = ["pc-1"] := by
  have h := c7_connected_pcs
    [Op.ctWindows "s1" (some "pc-1") (some "HostA") 50, Op.ctWeb "w1"]
  rw [h.1]
  decide

/-- C9 counterexample: the state reached by one connection registering
twice under different client ids has two producer entries with the same
connection id, and the disconnect cleanup removes only one of them — the
claimed invariant fails on a reachable state. -/
theorem c9_counterexample :
    (((applyOps [Op.ctWindows "s1" (some "a") none 0,
        Op.ctWindows "s1" (some "b") none 1]).windows.filter
          (fun p => p.2.socketId == "s1")).length = 2) ∧
    (((disconnectH (applyOps [Op.ctWindows "s1" (some "a") none 0,
        Op.ctWindows "s1" (some "b") none 1]) "s1").1.windows.filter
          (fun p => p.2.socketId == "s1")).length = 1) := by decide

theorem mapDelete_filter_socket (w : List (String × WindowsClient))
    (s k : String) (wc : WindowsClient)
    (hnd : (w.map Prod.fst).Nodup)
    (h : w.find? (fun p => p.2.socketId == s) = some (k, wc)) :
    (mapDelete w k).filter (fun p => p.2.socketId == s) =
      (w.filter (fun p => p.2.socketId == s)).tail := by
  induction w with
  | nil => simp at h
  | cons p rest ih =>
    by_cases hp : (p.2.socketId == s) = true
    · have hpe : p = (k, wc) := by
        simp only [List.find?_cons, hp] at h
        simpa using h
      subst hpe
      have hk : k ∉ rest.map Prod.fst :=
        (List.nodup_cons.mp (by simpa using hnd)).1
      have hrest : rest.filter (fun q => q.1 != k) = rest := by
        apply List.filter_eq_self.mpr
        intro q hq
        have hne : q.1 ≠ k := fun e => hk (List.mem_map.mpr ⟨q, hq, e⟩)
        simpa using hne
      have e1 : mapDelete ((k, wc) :: rest) k = rest := by
        simp only [mapDelete, List.filter_cons]
        simpa using hrest
      rw [e1]
      simp [List.filter_cons, hp]
    · have hb : (p.2.socketId == s) = false := by simpa using hp
      simp only [List.find?_cons, hb] at h
      have hnd' : (rest.map Prod.fst).Nodup :=
        (List.nodup_cons.mp (by simpa using hnd)).2
      have hkmem : k ∈ rest.map Prod.fst :=
        List.mem_map.mpr ⟨(k, wc), List.mem_of_find?_eq_some h, rfl⟩
      have hp1 : p.1 ≠ k := by
        intro e
        exact (List.nodup_cons.mp (by simpa using hnd)).1 (e ▸ hkmem)
      have e1 : mapDelete (p :: rest) k = p :: mapDelete rest k := by
        simp [mapDelete, List.filter_cons, hp1]
      rw [e1]
      simp only [List.filter_cons, hb, Bool.false_eq_true, if_false]
      exact ih hnd' h

/-- C9 (amended): a connection id may appear in several producer entries
(one per client id it registered under); in every reachable state the
disconnect cleanup removes exactly the first such entry in insertion order:
the disconnecting connection's remaining entries are the tail of its
entries before the disconnect.  Only when the connection had registered a
single entry does the cleanup remove everything it registered. -/
theorem c9_disconnect_first_only (ops : List Op) (s : String) :
    ((disconnectH (applyOps ops) s).1).windows.filter
        (fun p => p.2.socketId == s) =
      ((applyOps ops).windows.filter (fun p => p.2.socketId == s)).tail := by
  have hg := goodWin_applyOps ops
  cases hf : (applyOps ops).windows.find? (fun p => p.2.socketId == s) with
  | none =>
    have e : (disconnectH (applyOps ops) s).1.windows =
        (applyOps ops).windows := by
      simp [disconnectH, hf]
    have hnil : (applyOps ops).windows.filter
        (fun p => p.2.socketId == s) = [] :=
      List.filter_eq_nil_iff.mpr (List.find?_eq_none.mp hf)
    rw [e, hnil]
    rfl
  | some pr =>
    have e : (disconnectH (applyOps ops) s).1.windows =
        mapDelete (applyOps ops).windows pr.1 := by
      simp [disconnectH, hf]
    rw [e]
    exact mapDelete_filter_socket _ s pr.1 pr.2 hg.2 hf

/-- The routing pattern the spec demands of every control operation: the
recipient keys are all registered producers, exactly one registered
producer, or nobody. -/
def AllOneOrNone (st : ServerState) (dels : List (String × Event)) : Prop :=
  dels.map Prod.fst = st.windows.map Prod.fst ∨
  (∃ d, dels.map Prod.fst = [d] ∧ d ∈ st.windows.map Prod.fst) ∨
  dels = []

theorem allOneOrNone_broadcast (st : ServerState)
    (f : String × WindowsClient → Event) :
    AllOneOrNone st (st.windows.map (fun p => (p.1, f p))) := by
  left
  rw [List.map_map]
  rfl

theorem allOneOrNone_one (st : ServerState) (c : String) (ev : Event)
    (hc : c ∈ st.windows.map Prod.fst) : AllOneOrNone st [(c, ev)] :=
  Or.inr (Or.inl ⟨c, rfl, hc⟩)

theorem allOneOrNone_nil (st : ServerState) : AllOneOrNone st [] :=
  Or.inr (Or.inr rfl)

/-- C1 counterexample: `POST /update` with a valid text and an unknown
producer id responds with a 404 "Client not found" error, although the
claim states that an unknown id produces no error. -/
theorem c1_counterexample :
    (postUpdate demoSt (JSVal.str "hello") (some "nope")).1 =
      Resp.err 404 "Client not found" := by decide

/-- C1 (amended): for each of the four control operations, a supplied
(truthy) id naming a registered producer delivers the event to exactly that
producer; a supplied id naming no registered producer delivers to no one —
silently for `request_screenshot` and `remote_command`, while `/update`
and `/toggle-overlay` answer the HTTP caller with a 404 "Client not found"
error; an absent id broadcasts to every registered producer.  In every
case the recipient set is all, one, or none — never a proper non-empty
subset. -/
theorem c1_control_routing (st : ServerState) (text visible command : JSVal)
    (c : String) :
    ((text.truthy = true ∨ text = JSVal.num 0) → c ≠ "" →
      ∀ w : WindowsClient, mapGet st.windows c = some w →
        postUpdate st text (some c) =
          (Resp.updateOk text 1, [(c, Event.updateOverlay text.toStr)])) ∧
    ((text.truthy = true ∨ text = JSVal.num 0) → c ≠ "" →
      mapGet st.windows c = none →
        postUpdate st text (some c) =
          (Resp.err 404 "Client not found", [])) ∧
    ((text.truthy = true ∨ text = JSVal.num 0) →
      postUpdate st text none =
        (Resp.updateOk text st.windows.length,
          st.windows.map (fun p => (p.1, Event.updateOverlay text.toStr)))) ∧
    (c ≠ "" → ∀ w : WindowsClient, mapGet st.windows c = some w →
      postToggle st visible (some c) =
        (Resp.toggleOk visible, [(c, Event.toggleOverlay visible)])) ∧
    (c ≠ "" → mapGet st.windows c = none →
      postToggle st visible (some c) =
        (Resp.err 404 "Client not found", [])) ∧
    (postToggle st visible none =
      (Resp.toggleOk visible,
        st.windows.map (fun p => (p.1, Event.toggleOverlay visible)))) ∧
    (c ≠ "" → ∀ w : WindowsClient, mapGet st.windows c = some w →
      requestScreenshotH st (some c) = [(c, Event.requestScreenshot)]) ∧
    (c ≠ "" → mapGet st.windows c = none →
      requestScreenshotH st (some c) = []) ∧
    (requestScreenshotH st none =
      st.windows.map (fun p => (p.1, Event.requestScreenshot))) ∧
    (c ≠ "" → ∀ w : WindowsClient, mapGet st.windows c = some w →
      remoteCommandH st (some c) command =
        [(c, Event.executeCommand command)]) ∧
    (c ≠ "" → mapGet st.windows c = none →
      remoteCommandH st (some c) command = []) ∧
    (remoteCommandH st none command =
      st.windows.map (fun p => (p.1, Event.executeCommandRaw none command))) ∧
    (∀ cid : Option String,
      AllOneOrNone st ((postUpdate st text cid).2) ∧
      AllOneOrNone st ((postToggle st visible cid).2) ∧
      AllOneOrNone st (requestScreenshotH st cid) ∧
      AllOneOrNone st (remoteCommandH st cid command)) := by
  have hT : ∀ c' : String, c' ≠ "" → strTruthy (some c') = true :=
    fun c' hc' => by simpa [strTruthy] using hc'
  have hvalid : (text.truthy = true ∨ text = JSVal.num 0) →
      (!text.truthy && text != JSVal.num 0) = false := by
    intro h
    rcases h with h | h
    · simp [h]
    · simp [h]
  refine ⟨?_, ?_, ?_, ?_, ?_, ?_, ?_, ?_, ?_, ?_, ?_, ?_, ?_⟩
  · intro hv hc w hg
    simp [postUpdate, hvalid hv, hT c hc, hg]
  · intro hv hc hg
    simp [postUpdate, hvalid hv, hT c hc, hg]
  · intro hv
    simp [postUpdate, hvalid hv, strTruthy]
  · intro hc w hg
    simp [postToggle, hT c hc, hg]
  · intro hc hg
    simp [postToggle, hT c hc, hg]
  · simp [postToggle, strTruthy]
  · intro hc w hg
    simp [requestScreenshotH, hT c hc, hg]
  · intro hc hg
    simp [requestScreenshotH, hT c hc, hg]
  · simp [requestScreenshotH, strTruthy]
  · intro hc w hg
    simp [remoteCommandH, hT c hc, hg]
  · intro hc hg
    simp [remoteCommandH, hT c hc, hg]
  · simp [remoteCommandH, strTruthy]
  · intro cid
    have dispatch : ∀ dels : List (String × Event),
        (dels = [] ∨
          (∃ c' ∈ st.windows.map Prod.fst, ∃ ev : Event, dels = [(c', ev)]) ∨
          (∃ evf : String × WindowsClient → Event,
            dels = st.windows.map (fun p => (p.1, evf p)))) →
        AllOneOrNone st dels := by
      rintro dels (rfl | ⟨c', hc', ev, rfl⟩ | ⟨evf, rfl⟩)
      · exact allOneOrNone_nil st
      · exact allOneOrNone_one st c' ev hc'
      · exact allOneOrNone_broadcast st evf
    refine ⟨?_, ?_, ?_, ?_⟩
    · apply dispatch
      by_cases hv : (!text.truthy && text != JSVal.num 0) = true
      · left
        simp [postUpdate, hv]
      · have hv' : (!text.truthy && text != JSVal.num 0) = false := by
          simpa using hv
        cases cid with
        | none =>
          right; right
          exact ⟨fun _ => Event.updateOverlay text.toStr,
            by simp [postUpdate, hv', strTruthy]⟩
        | some c' =>
          by_cases hc' : c' = ""
          · subst hc'
            right; right
            exact ⟨fun _ => Event.updateOverlay text.toStr,
              by simp [postUpdate, hv', strTruthy]⟩
          · cases hg : mapGet st.windows c' with
            | some w =>
              right; left
              exact ⟨c', mem_keys_of_mapGet hg, Event.updateOverlay text.toStr,
                by simp [postUpdate, hv', hT c' hc', hg]⟩
            | none =>
              left
              simp [postUpdate, hv', hT c' hc', hg]
    · apply dispatch
      cases cid with
      | none =>
        right; right
        exact ⟨fun _ => Event.toggleOverlay visible,
          by simp [postToggle, strTruthy]⟩
      | some c' =>
        by_cases hc' : c' = ""
        · subst hc'
          right; right
          exact ⟨fun _ => Event.toggleOverlay visible,
            by simp [postToggle, strTruthy]⟩
        · cases hg : mapGet st.windows c' with
          | some w =>
            right; left
            exact ⟨c', mem_keys_of_mapGet hg, Event.toggleOverlay visible,
              by simp [postToggle, hT c' hc', hg]⟩
          | none =>
            left
            simp [postToggle, hT c' hc', hg]
    · apply dispatch
      cases cid with
      | none =>
        right; right
        exact ⟨fun _ => Event.requestScreenshot,
          by simp [requestScreenshotH, strTruthy]⟩
      | some c' =>
        by_cases hc' : c' = ""
        · subst hc'
          right; right
          exact ⟨fun _ => Event.requestScreenshot,
            by simp [requestScreenshotH, strTruthy]⟩
        · cases hg : mapGet st.windows c' with
          | some w =>
            right; left
            exact ⟨c', mem_keys_of_mapGet hg, Event.requestScreenshot,
              by simp [requestScreenshotH, hT c' hc', hg]⟩
          | none =>
            left
            simp [requestScreenshotH, hT c' hc', hg]
    · apply dispatch
      cases cid with
      | none =>
        right; right
        exact ⟨fun _ => Event.executeCommandRaw none command,
          by simp [remoteCommandH, strTruthy]⟩
      | some c' =>
        by_cases hc' : c' = ""
        · subst hc'
          right; right
          exact ⟨fun _ => Event.executeCommandRaw (some "") command,
            by simp [remoteCommandH, strTruthy]⟩
        · cases hg : mapGet st.windows c' with
          | some w =>
            right; left
            exact ⟨c', mem_keys_of_mapGet hg, Event.executeCommand command,
              by simp [remoteCommandH, hT c' hc', hg]⟩
          | none =>
            left
            simp [remoteCommandH, hT c' hc', hg]

/-- C1 witness: with the one registered producer `pc-1`, a targeted update
reaches exactly it. -/
theorem c1_control_routing_witness :
    postUpdate demoSt (JSVal.str "hi") (some "pc-1") =
      (Resp.updateOk (JSVal.str "hi") 1,
        [("pc-1", Event.updateOverlay "hi")]) :=
  (c1_control_routing demoSt (JSVal.str "hi") JSVal.null JSVal.null
    "pc-1").1 (Or.inl (by decide)) (by decide) demoWin (by decide)

end Alcon
